import Mathlib

/-!
# Verification of the LeaDMify agent orchestration core (`ibot_hub.py`)

Shallow embedding of the orchestration core of `ibot_hub.py`:
the control-plane client (`api_request`, `check_connection`), the poll
dispatcher (`monitor_campaigns`), the campaign orchestrator
(`run_campaign_thread`) and the per-profile worker (`run_profile`).

External effects (HTTP responses, driver liveness, send outcomes, the
stop flag read at each check) are supplied by explicit environment
records that the model functions consume; state that the Python code
mutates (`open_profiles`, per-campaign `drivers`, `connection_failures`,
`processed_requests`) is threaded explicitly.  Sleeps are recorded in
traces (the `random.uniform(0,1)` jitter added by `exponential_backoff`
is nonnegative, so the recorded `min (2 ^ attempt) 300` is the integral
lower bound of the real delay).
-/

namespace IbotHub

/-- `Config` constants from `ibot_hub.py` (class `Config`). -/
def MAX_RETRIES_API : Nat := 5

/-- `Config.MAX_RETRIES_PROFILE`. -/
def MAX_RETRIES_PROFILE : Nat := 3

/-- `Config.MAX_CONNECTION_FAILURES`. -/
def MAX_CONNECTION_FAILURES : Nat := 10

/-- `exponential_backoff(attempt)` from `ibot_hub.py`, without the
`random.uniform(0, 1)` jitter term (which is in `[0,1)`, so this value
is a lower bound of the real delay). -/
def exponential_backoff (attempt : Nat) : Nat := min (2 ^ attempt) 300

/-! ## `check_connection` (lines 464–487)

The probe issues one GET; the outcome is either a response with some
status code or a transport-level exception.  Connection-health state is
the pair (`connection_failures`, `last_connection_check`). -/

/-- Outcome of the single probe request inside `check_connection`. -/
inductive ProbeOutcome where
  | resp (status : Nat)
  | exn
  deriving DecidableEq, Repr

/-- Connection-health state of the client: `connection_failures` and
`last_connection_check`. -/
structure ConnState where
  failures : Nat
  lastCheck : Nat
  deriving DecidableEq, Repr

/-- Result of `check_connection`: `True`, `False`, or the raised
`TokenExpiredException`. -/
inductive ConnResult where
  | healthy
  | unhealthy
  | tokenExpired
  deriving DecidableEq, Repr

/-- `IBotAutomation.check_connection` (lines 464–487).  `now` is the
value of `time.time()` stored into `last_connection_check` on success.
A 401 raises `TokenExpiredException` before any state mutation; a status
in `[200, 500)` resets `connection_failures` to 0 and refreshes
`last_connection_check`; any other status returns `False` with the
state untouched; a transport exception increments
`connection_failures`. -/
def check_connection (o : ProbeOutcome) (st : ConnState) (now : Nat) :
    ConnResult × ConnState :=
  match o with
  | ProbeOutcome.resp s =>
      if s = 401 then (ConnResult.tokenExpired, st)
      else if 200 ≤ s ∧ s < 500 then
        (ConnResult.healthy, { failures := 0, lastCheck := now })
      else
        (ConnResult.unhealthy, st)
  | ProbeOutcome.exn =>
      (ConnResult.unhealthy, { st with failures := st.failures + 1 })

/-! ## `api_request` (lines 508–563)

One attempt of the `for attempt in range(MAX_RETRIES_API)` loop either
sees the connection pre-check fail terminally (`ConnectionLost` raised
from `wait_for_connection`), or issues the HTTP request and observes a
response status, a transport error (`ConnectionError`/`Timeout`), or
some other exception.  The `Retry-After` header of a 429 is carried on
the response event (`none` means the header is absent, defaulting
to 60). -/

/-- The environment's answer to one attempt of the `api_request` loop. -/
inductive AttemptEvent where
  /-- the request was issued and a response with this status came back;
  `retryAfter` is the parsed `Retry-After` header for the 429 branch. -/
  | response (status : Nat) (retryAfter : Option Nat)
  /-- the connection pre-check failed and `wait_for_connection`
  exhausted its budget: `ConnectionLostException` is raised. -/
  | precheckLost
  /-- the request raised `ConnectionError` or `Timeout`;
  `waitRestores` is the result of `wait_for_connection` if the failure
  threshold is crossed. -/
  | transportError (waitRestores : Bool)
  /-- the request raised some other exception. -/
  | otherError
  deriving DecidableEq, Repr

/-- Result of `api_request`: a returned response (2xx), `None`,
or one of the two raised exceptions. -/
inductive ApiResult where
  | ok (status : Nat)
  | noResponse
  | tokenExpired
  | connectionLost
  deriving DecidableEq, Repr

/-- Observable trace of one `api_request` call: how many HTTP requests
were issued (each with the same `method`/`endpoint` arguments), and the
sleeps performed, in order. -/
structure ApiTrace where
  requests : Nat
  sleeps : List Nat
  deriving DecidableEq, Repr

/-- One iteration step state of `api_request`: attempt index and the
current `connection_failures` counter. -/
def apiRequestGo (events : List AttemptEvent) (fuel : Nat) (attempt : Nat)
    (failures : Nat) : ApiResult × ApiTrace :=
  match fuel, events with
  | 0, _ => (ApiResult.noResponse, { requests := 0, sleeps := [] })
  | _ + 1, [] => (ApiResult.noResponse, { requests := 0, sleeps := [] })
  | fuel + 1, e :: rest =>
      match e with
      | AttemptEvent.precheckLost =>
          (ApiResult.connectionLost, { requests := 0, sleeps := [] })
      | AttemptEvent.response s ra =>
          if s = 401 then
            (ApiResult.tokenExpired, { requests := 1, sleeps := [] })
          else if s = 429 then
            let w := ra.getD 60
            let (r, t) := apiRequestGo rest fuel (attempt + 1) failures
            (r, { requests := t.requests + 1, sleeps := w :: t.sleeps })
          else if 200 ≤ s ∧ s < 300 then
            (ApiResult.ok s, { requests := 1, sleeps := [] })
          else if 400 ≤ s ∧ s < 500 then
            (ApiResult.noResponse, { requests := 1, sleeps := [] })
          else if 500 ≤ s then
            let w := exponential_backoff attempt
            let (r, t) := apiRequestGo rest fuel (attempt + 1) failures
            (r, { requests := t.requests + 1, sleeps := w :: t.sleeps })
          else
            -- a 3xx (or sub-200) status falls through every branch of
            -- the Python `try` body: the loop advances with no sleep
            let (r, t) := apiRequestGo rest fuel (attempt + 1) failures
            (r, { requests := t.requests + 1, sleeps := t.sleeps })
      | AttemptEvent.transportError waitRestores =>
          let failures' := failures + 1
          if MAX_CONNECTION_FAILURES ≤ failures' ∧ ¬waitRestores then
            (ApiResult.connectionLost, { requests := 1, sleeps := [] })
          else
            let failures'' :=
              if MAX_CONNECTION_FAILURES ≤ failures' then 0 else failures'
            let w := exponential_backoff attempt
            let (r, t) := apiRequestGo rest fuel (attempt + 1) failures''
            (r, { requests := t.requests + 1, sleeps := w :: t.sleeps })
      | AttemptEvent.otherError =>
          let w := exponential_backoff attempt
          let (r, t) := apiRequestGo rest fuel (attempt + 1) failures
          (r, { requests := t.requests + 1, sleeps := w :: t.sleeps })

/-- `IBotAutomation.api_request` (lines 508–563): up to
`MAX_RETRIES_API` attempts, starting with `connection_failures =
failures0`. -/
def api_request (events : List AttemptEvent) (failures0 : Nat) :
    ApiResult × ApiTrace :=
  apiRequestGo events MAX_RETRIES_API 0 failures0

/-! ## `monitor_campaigns` (lines 1793–1971)

One poll cycle either completes normally, or raises one of
`TokenExpiredException`, `KeyboardInterrupt`, `ConnectionLostException`
(handled via `wait_for_connection`), or another exception (counted by
`consecutive_errors`, fatal at 5). -/

/-- Outcome of one iteration of the `while not self.global_stop`
poll loop. -/
inductive CycleEvent where
  | ok
  | tokenExpired
  | interrupted
  | connLost (waitRestores : Bool)
  | otherError
  deriving DecidableEq, Repr

/-- Result of running the poll loop: how many cycles executed (events
consumed) and the final value of `global_stop`. -/
structure MonitorResult where
  cycles : Nat
  globalStop : Bool
  deriving DecidableEq, Repr

/-- The poll loop of `IBotAutomation.monitor_campaigns`
(lines 1799–1964), driven by the per-cycle outcomes in `events`;
`errors` is `consecutive_errors`.  An empty event list models the
server never producing another observable cycle. -/
def monitorLoop (events : List CycleEvent) (errors : Nat) :
    MonitorResult :=
  match events with
  | [] => { cycles := 0, globalStop := false }
  | e :: rest =>
      match e with
      | CycleEvent.ok =>
          let r := monitorLoop rest 0
          { cycles := r.cycles + 1, globalStop := r.globalStop }
      | CycleEvent.tokenExpired => { cycles := 1, globalStop := true }
      | CycleEvent.interrupted => { cycles := 1, globalStop := true }
      | CycleEvent.connLost waitRestores =>
          if waitRestores then
            let r := monitorLoop rest errors
            { cycles := r.cycles + 1, globalStop := r.globalStop }
          else { cycles := 1, globalStop := true }
      | CycleEvent.otherError =>
          if 5 ≤ errors + 1 then { cycles := 1, globalStop := true }
          else
            let r := monitorLoop rest (errors + 1)
            { cycles := r.cycles + 1, globalStop := r.globalStop }

/-! ## Round-robin partition in `run_campaign_thread` (lines 1738–1741)

```
user_groups = [[] for _ in range(len(profiles))]
for i, user in enumerate(remaining_recipients):
    profile_index = i % len(profiles)
    user_groups[profile_index].append(user)
```
-/

/-- The enumerated `for` loop above: `i` is the running index of
`enumerate`. -/
def assignGroups (n : Nat) (groups : List (List String))
    (users : List String) (i : Nat) : List (List String) :=
  match users with
  | [] => groups
  | u :: rest =>
      assignGroups n
        (groups.set (i % n) ((groups.getD (i % n) []) ++ [u])) rest (i + 1)

/-- `user_groups` as computed by `run_campaign_thread`
(lines 1738–1741). -/
def user_groups (n : Nat) (remaining : List String) : List (List String) :=
  assignGroups n (List.replicate n []) remaining 0

/-! ## Ancillary request dispatch in one poll cycle (lines 1843–1926) -/

/-- The three ancillary request queues polled by `monitor_campaigns`. -/
inductive QueueKind where
  | unread
  | profile
  | firefox
  deriving DecidableEq, Repr

/-- The dispatch loop used for the profile-open (lines 1869–1888) and
Firefox-profile (lines 1899–1918) queues: skip an id already in
`processed_requests`, otherwise add it to the set and dispatch it.
Returns the ids dispatched (in order) and the updated set. -/
def dispatchSeen (pending : List Nat) (seen : List Nat) :
    List Nat × List Nat :=
  match pending with
  | [] => ([], seen)
  | id :: rest =>
      if id ∈ seen then dispatchSeen rest seen
      else
        let (ds, seen') := dispatchSeen rest (id :: seen)
        (id :: ds, seen')

/-- Observable outcome of the ancillary part of one poll cycle. -/
structure CycleOut where
  dispatched : List (QueueKind × Nat)
  seen : List Nat
  counter : Nat
  deriving DecidableEq, Repr

/-- The ancillary-request portion of one `monitor_campaigns` cycle
(lines 1843–1926): the unread-check queue (lines 1849–1858) dispatches
every pending request with no `processed_requests` check; the
profile-open and Firefox-profile queues go through `dispatchSeen`; then
the cleanup counter is bumped and the seen set is cleared every 10
cycles (lines 1922–1926). -/
def ancillaryCycle (unreadQ profileQ firefoxQ : List Nat)
    (seen : List Nat) (counter : Nat) : CycleOut :=
  let du := unreadQ
  let (dp, seen1) := dispatchSeen profileQ seen
  let (df, seen2) := dispatchSeen firefoxQ seen1
  let counter1 := counter + 1
  let (seen3, counter2) :=
    if 10 ≤ counter1 then ([], 0) else (seen2, counter1)
  { dispatched :=
      du.map (fun id => (QueueKind.unread, id)) ++
      dp.map (fun id => (QueueKind.profile, id)) ++
      df.map (fun id => (QueueKind.firefox, id)),
    seen := seen3, counter := counter2 }

/-! ## `run_campaign_thread` finalization (lines 1698–1787) -/

/-- How the supervised portion of the campaign run (progress report,
partition, worker spawn/join) ends, as seen by the `try`/`except`
structure of `run_campaign_thread`. -/
inductive RunOutcome where
  | normal
  | tokenExpired
  | connLost
  | otherError
  deriving DecidableEq, Repr

/-- Environment of one `run_campaign_thread` call:
`get_campaign_data` either fails (`none`) or yields profile and
recipient counts; `outcome` is how the run body ends; `stopAtJoin` is
the campaign's stop flag when line 1763 reads it; `finalSent`/
`finalFailed` are the shared counters after the workers join. -/
structure CampaignEnv where
  data : Option (Nat × Nat)
  outcome : RunOutcome
  stopAtJoin : Bool
  finalSent : Nat
  finalFailed : Nat
  deriving DecidableEq, Repr

/-- A terminal control-plane call issued by `run_campaign_thread`. -/
inductive FinalCall where
  | complete (sent failed : Nat)
  | fail (reason : String)
  deriving DecidableEq, Repr

/-- `IBotAutomation.run_campaign_thread` (lines 1698–1787), projected
onto its terminal `complete`/`fail` calls.  Returns the calls issued
and whether `TokenExpiredException` was re-raised.  The `finally`
block (close profiles, delete the registry entry) issues no terminal
call and is not represented. -/
def run_campaign_thread (env : CampaignEnv) : List FinalCall × Bool :=
  match env.data with
  | none => ([], false)
  | some (numProfiles, numRecipients) =>
      if numProfiles = 0 then ([FinalCall.fail ("No profiles")], false)
      else if numRecipients = 0 then
        ([FinalCall.fail ("No recipients")], false)
      else
        match env.outcome with
        | RunOutcome.normal =>
            if env.stopAtJoin then ([], false)
            else ([FinalCall.complete env.finalSent env.finalFailed], false)
        | RunOutcome.tokenExpired => ([], true)
        | RunOutcome.connLost =>
            ([FinalCall.fail ("Connection lost")], false)
        | RunOutcome.otherError => ([FinalCall.fail ("Error")], false)

/-! ## The `open_profiles` acquire prologue of `run_profile`
(lines 1575–1585)

The membership test (line 1577) and the insert (line 1585) are two
separate operations on the shared `open_profiles` set, with no lock
held and with `create_firefox_driver` executing between them; each
single set operation is atomic (CPython), so a concurrent execution of
two `run_profile` entries on the same path is an interleaving of the
two workers' `test` and `insert` steps. -/

/-- Progress of one worker through the acquire prologue. -/
inductive WStatus where
  | start
  | passedTest
  | proceeded
  | skipped
  deriving DecidableEq, Repr

/-- State of two workers racing for the same `profile_path`: whether
the path is in `open_profiles`, and each worker's progress. -/
structure Acq2 where
  held : Bool
  w1 : WStatus
  w2 : WStatus
  deriving DecidableEq, Repr

/-- One atomic step of a worker: from `start`, the membership test of
line 1577 (skip if held, else pass); from `passedTest`, the insert of
line 1585 (the worker then proceeds to run the job). -/
def acqStep (w : WStatus) (held : Bool) : WStatus × Bool :=
  match w with
  | WStatus.start =>
      if held then (WStatus.skipped, held) else (WStatus.passedTest, held)
  | WStatus.passedTest => (WStatus.proceeded, true)
  | s => (s, held)

/-- Run a schedule over the two workers: `true` steps worker 1,
`false` steps worker 2. -/
def schedRun (sched : List Bool) (st : Acq2) : Acq2 :=
  match sched with
  | [] => st
  | pick1 :: rest =>
      if pick1 then
        let (w, h) := acqStep st.w1 st.held
        schedRun rest { st with w1 := w, held := h }
      else
        let (w, h) := acqStep st.w2 st.held
        schedRun rest { st with w2 := w, held := h }

/-! ## `run_profile` (lines 1561–1692)

The worker's environment answers each external interaction through
per-kind event lists (consumed head-first; a benign default answers
when a list is exhausted):

* `stops` — each evaluation of
  `campaign_id not in self.active_campaigns or ...['stop']`
  (the campaign stays registered while its workers run, because
  `run_campaign_thread` joins them before deleting the registry entry,
  so this is the stop flag);
* `creates` — each `create_firefox_driver` call (`some id` success,
  `none` raises);
* `alives` — each `is_driver_alive` call;
* `fetches` — each `get_processed_recipients` call (`true`: the
  authoritative list is returned; `false`: the call failed and, per its
  `except` clause, returned `[]`);
* `sends` — each `send_message` call's boolean result (the function
  catches its own exceptions);
* `quits` — each `driver.quit()` call (`false` raises).

The control plane's processed-recipients bookkeeping is modelled from
the spec (the set is "authoritative on the control plane" and lists
"recipient identifiers already sent"): a successful fetch returns the
initial processed set plus every recipient this worker has successfully
sent so far. -/

/-- Environment of one `run_profile` call. -/
structure RPEnv where
  stops : List Bool
  creates : List (Option Nat)
  alives : List Bool
  fetches : List Bool
  sends : List Bool
  quits : List Bool
  deriving DecidableEq, Repr

/-- Mutable state touched by `run_profile`: the shared `open_profiles`
set, the campaign's shared `drivers` list, plus two traces — the
successful sends (which the authoritative processed set records) and
all `send_message` calls issued. -/
structure RPState where
  openProfiles : List String
  drivers : List Nat
  sentOk : List String
  attempts : List String
  deriving DecidableEq, Repr

/-- Consume the next stop-check answer (default: not stopped). -/
def popStop (env : RPEnv) : Bool × RPEnv :=
  match env.stops with
  | [] => (false, env)
  | b :: rest => (b, { env with stops := rest })

/-- Consume the next `create_firefox_driver` outcome (default:
the call raises). -/
def popCreate (env : RPEnv) : Option Nat × RPEnv :=
  match env.creates with
  | [] => (none, env)
  | r :: rest => (r, { env with creates := rest })

/-- Consume the next `is_driver_alive` answer (default: alive). -/
def popAlive (env : RPEnv) : Bool × RPEnv :=
  match env.alives with
  | [] => (true, env)
  | b :: rest => (b, { env with alives := rest })

/-- Consume the next `get_processed_recipients` outcome (default:
the fetch succeeds). -/
def popFetch (env : RPEnv) : Bool × RPEnv :=
  match env.fetches with
  | [] => (true, env)
  | b :: rest => (b, { env with fetches := rest })

/-- Consume the next `send_message` result (default: failure). -/
def popSend (env : RPEnv) : Bool × RPEnv :=
  match env.sends with
  | [] => (false, env)
  | b :: rest => (b, { env with sends := rest })

/-- Consume the next `driver.quit()` outcome (default: no raise). -/
def popQuit (env : RPEnv) : Bool × RPEnv :=
  match env.quits with
  | [] => (true, env)
  | b :: rest => (b, { env with quits := rest })

/-- What one `get_processed_recipients` call returns: the authoritative
set (`processed0` plus this worker's successful sends) on success,
`[]` on failure. -/
def fetchNow (processed0 : List String) (st : RPState) (fok : Bool) :
    List String :=
  if fok then processed0 ++ st.sentOk else []

/-- How the body of one `while` iteration of `run_profile` ends:
the recipient loop finished (or broke on the stop flag), or a
`ProfileException` was raised by the restart block (line 1625). -/
inductive BodyExit where
  | finished
  | profileExn
  deriving DecidableEq, Repr

/-- The driver-restart block (lines 1606–1625): remove the dead driver
from the campaign's list, recreate it and append the new one; a
creation failure raises `ProfileException`.  (`open_profiles` is not
touched here.)  `Sum.inl` carries the new driver, `Sum.inr` is the
raised `ProfileException`. -/
def restartDriver (d : Nat) (st : RPState) (env : RPEnv) :
    (Nat × RPState × RPEnv) ⊕ (RPState × RPEnv) :=
  let st1 := { st with drivers := st.drivers.erase d }
  let (res, env1) := popCreate env
  match res with
  | none => Sum.inr (st1, env1)
  | some d2 =>
      Sum.inl (d2, { st1 with drivers := st1.drivers ++ [d2] }, env1)

/-- The per-recipient tail of the loop body (lines 1627–1637): the
pre-send re-fetch of the processed set with skip (lines 1627–1630),
then the send with its counter updates.  Returns the updated state and
environment. -/
def sendCheckAndSend (processed0 : List String) (u : String)
    (st : RPState) (env : RPEnv) : RPState × RPEnv :=
  let (fok, env4) := popFetch env
  if u ∈ fetchNow processed0 st fok then (st, env4)
  else
    let (ok, env5) := popSend env4
    let st4 :=
      if ok then
        { st with sentOk := st.sentOk ++ [u],
                  attempts := st.attempts ++ [u] }
      else { st with attempts := st.attempts ++ [u] }
    (st4, env5)

/-- The recipient `for` loop (lines 1601–1637) over the remaining
users: per user, the stop check (break), the liveness check with
restart, then the pre-send check and send (`sendCheckAndSend`).
Returns the state, the current driver variable and how the loop
ended. -/
def sendLoop (processed0 : List String) (users : List String) (d : Nat)
    (st : RPState) (env : RPEnv) : RPState × RPEnv × Nat × BodyExit :=
  match users with
  | [] => (st, env, d, BodyExit.finished)
  | u :: rest =>
      let (stopped, env1) := popStop env
      if stopped then (st, env1, d, BodyExit.finished)
      else
        let (alive, env2) := popAlive env1
        let r := if alive then Sum.inl (d, st, env2)
                 else restartDriver d st env2
        match r with
        | Sum.inr (st3, env3) => (st3, env3, d, BodyExit.profileExn)
        | Sum.inl (d3, st3, env3) =>
            let (st4, env4) := sendCheckAndSend processed0 u st3 env3
            sendLoop processed0 rest d3 st4 env4

/-- The remaining-user computation of lines 1593–1594: the assigned
shard minus the fetched processed set. -/
def remainingOf (processed0 : List String) (users : List String)
    (st : RPState) (fok : Bool) : List String :=
  users.filter (fun u => u ∉ fetchNow processed0 st fok)

/-- The `try` body of one `while` iteration once a driver is in hand
(lines 1593–1652) together with the two `except` handlers: the
remaining-user computation, the recipient loop (the
`if not remaining_users` branch of line 1598 is the loop run on an
empty list), then the cleanup block (lines 1639–1650: detach the
driver, discard the path, quit).  `Sum.inl` is the normal
`break`-and-return exit; `Sum.inr (dr, st, env)` re-enters the `while`
loop with driver variable `dr` after an exception incremented
`retry_count` (`driver.quit()` raising in the cleanup block is caught
by the generic handler at line 1677 and leaves the driver variable
set; a `ProfileException` runs the handler at lines 1654–1675, which
detaches, discards and resets the driver variable). -/
def rpBody (path : String) (processed0 : List String)
    (users : List String) (d : Nat) (st : RPState) (env : RPEnv) :
    (RPState × RPEnv) ⊕ (Option Nat × RPState × RPEnv) :=
  let fok := (popFetch env).1
  let env1 := (popFetch env).2
  match sendLoop processed0 (remainingOf processed0 users st fok) d st
      env1 with
  | (st1, env2, d1, BodyExit.finished) =>
      let st2 := { st1 with drivers := st1.drivers.erase d1,
                            openProfiles := st1.openProfiles.erase path }
      if (popQuit env2).1 then Sum.inl (st2, (popQuit env2).2)
      else Sum.inr (some d1, st2, (popQuit env2).2)
  | (st1, env2, d1, BodyExit.profileExn) =>
      let st2 := { st1 with drivers := st1.drivers.erase d1,
                            openProfiles := st1.openProfiles.erase path }
      Sum.inr (none, st2, (popQuit env2).2)

/-- The cleanup after the `while` loop (lines 1680–1692): if the driver
variable is still set, detach it, discard the path and quit (failures
swallowed). -/
def finalCleanup (path : String) (dr : Option Nat) (st : RPState)
    (env : RPEnv) : RPState × RPEnv :=
  match dr with
  | none => (st, env)
  | some d =>
      let st1 := { st with drivers := st.drivers.erase d,
                           openProfiles := st.openProfiles.erase path }
      let (_, env1) := popQuit env
      (st1, env1)

/-- The `while retry_count < max_retries` loop of `run_profile`
(lines 1568–1692): `fuel = max_retries - retry_count`.  Per iteration:
the stop check (break to the final cleanup); if no driver is held, the
`open_profiles` membership test (early `return` on a hit, line 1580),
driver creation (a raise is caught by the generic handler and consumes
a retry) and acquisition (insert the path, append the driver,
lines 1585–1589); then the iteration body. -/
def rpLoop (path : String) (processed0 : List String)
    (users : List String) :
    Nat → Option Nat → RPState → RPEnv → RPState × RPEnv
  | 0, dr, st, env => finalCleanup path dr st env
  | fuel + 1, dr, st, env =>
      let (stopped, env1) := popStop env
      if stopped then finalCleanup path dr st env1
      else
        match dr with
        | some d =>
            match rpBody path processed0 users d st env1 with
            | Sum.inl (st2, env2) => (st2, env2)
            | Sum.inr (dr2, st2, env2) =>
                rpLoop path processed0 users fuel dr2 st2 env2
        | none =>
            if path ∈ st.openProfiles then (st, env1)
            else
              match popCreate env1 with
              | (none, env2) => rpLoop path processed0 users fuel none st env2
              | (some d, env2) =>
                  let st2 := { st with
                                openProfiles := path :: st.openProfiles,
                                drivers := st.drivers ++ [d] }
                  match rpBody path processed0 users d st2 env2 with
                  | Sum.inl (st3, env3) => (st3, env3)
                  | Sum.inr (dr3, st3, env3) =>
                      rpLoop path processed0 users fuel dr3 st3 env3

/-- `IBotAutomation.run_profile` (lines 1561–1692), for the worker
assigned `users` on the profile at `path`, with `processed0` the
control plane's processed set at entry. -/
def run_profile (path : String) (processed0 : List String)
    (users : List String) (maxRetries : Nat) (st : RPState)
    (env : RPEnv) : RPState × RPEnv :=
  rpLoop path processed0 users maxRetries none st env

/-! ## Helper lemmas -/

/-- A 4xx status other than 401/429 makes any attempt of the
`api_request` loop return `None` at once. -/
lemma apiRequestGo_4xx (s : Nat) (ra : Option Nat)
    (rest : List AttemptEvent) (fuel attempt failures : Nat)
    (h4 : 400 ≤ s) (h5 : s < 500) (h401 : s ≠ 401) (h429 : s ≠ 429)
    (hf : 0 < fuel) :
    apiRequestGo (AttemptEvent.response s ra :: rest) fuel attempt failures
      = (ApiResult.noResponse, { requests := 1, sleeps := [] }) := by
  match fuel, hf with
  | fuel + 1, _ =>
    simp only [apiRequestGo, if_neg h401, if_neg h429]
    rw [if_neg (by omega), if_pos (by omega)]

/-- A 401 response makes any attempt of the `api_request` loop raise
`TokenExpiredException` at once, with no retry. -/
lemma apiRequestGo_401 (ra : Option Nat) (rest : List AttemptEvent)
    (fuel attempt failures : Nat) (hf : 0 < fuel) :
    apiRequestGo (AttemptEvent.response 401 ra :: rest) fuel attempt failures
      = (ApiResult.tokenExpired, { requests := 1, sleeps := [] }) := by
  match fuel, hf with
  | fuel + 1, _ => simp [apiRequestGo]

/-- An event is a "soft-failure" response: a 5xx, or a 4xx other than
401 and 429. -/
def softEvent (e : AttemptEvent) : Prop :=
  ∃ s ra, e = AttemptEvent.response s ra ∧
    (500 ≤ s ∨ (400 ≤ s ∧ s < 500 ∧ s ≠ 401 ∧ s ≠ 429))

/-- On soft-failure responses only, the `api_request` loop always ends
with `None` — it raises nothing. -/
lemma apiRequestGo_soft (events : List AttemptEvent)
    (fuel attempt failures : Nat)
    (h : ∀ e ∈ events, softEvent e) :
    (apiRequestGo events fuel attempt failures).1 = ApiResult.noResponse := by
  induction fuel generalizing events attempt failures with
  | zero => cases events <;> simp [apiRequestGo]
  | succ fuel ih =>
    match events with
    | [] => simp [apiRequestGo]
    | e :: rest =>
      obtain ⟨s, ra, rfl, hs⟩ := h e (List.mem_cons_self e rest)
      rcases hs with h5 | ⟨h4a, h4b, h401, h429⟩
      · have h401 : s ≠ 401 := by omega
        have h429 : s ≠ 429 := by omega
        simp only [apiRequestGo, if_neg h401, if_neg h429]
        rw [if_neg (by omega), if_neg (by omega), if_pos h5]
        have := ih rest (attempt + 1) failures
          (fun e he => h e (List.mem_cons_of_mem _ he))
        rcases hr : apiRequestGo rest fuel (attempt + 1) failures with ⟨r, t⟩
        rw [hr] at this
        simpa using this
      · rw [apiRequestGo_4xx s ra rest _ attempt failures h4a h4b h401 h429
          (Nat.succ_pos fuel)]

/-- Unrolling the backoff-sleep schedule by one attempt. -/
lemma range_map_backoff (fuel attempt : Nat) :
    (List.range (fuel + 1)).map (fun i => exponential_backoff (attempt + i))
      = exponential_backoff attempt ::
          (List.range fuel).map
            (fun i => exponential_backoff (attempt + 1 + i)) := by
  rw [List.range_succ_eq_map]
  simp only [List.map_cons, List.map_map, Nat.add_zero]
  congr 1
  apply List.map_congr_left
  intro i _
  simp only [Function.comp]
  congr 1
  omega

/-- On a full budget of 5xx responses, `api_request`'s loop issues one
request and one backoff sleep per remaining attempt and returns
`None`. -/
lemma apiRequestGo_5xx_ceiling (statuses : List Nat)
    (fuel attempt failures : Nat)
    (h : ∀ s ∈ statuses, 500 ≤ s) (hlen : fuel ≤ statuses.length) :
    apiRequestGo (statuses.map (fun s => AttemptEvent.response s none))
        fuel attempt failures
      = (ApiResult.noResponse,
         { requests := fuel,
           sleeps := (List.range fuel).map
             (fun i => exponential_backoff (attempt + i)) }) := by
  induction fuel generalizing statuses attempt failures with
  | zero => cases statuses <;> simp [apiRequestGo]
  | succ fuel ih =>
    match statuses with
    | [] => simp at hlen
    | s :: rest =>
      have h5 : 500 ≤ s := h s (List.mem_cons_self s rest)
      have h401 : s ≠ 401 := by omega
      have h429 : s ≠ 429 := by omega
      simp only [List.map_cons, apiRequestGo, if_neg h401, if_neg h429]
      rw [if_neg (by omega), if_neg (by omega), if_pos h5]
      rw [ih rest (attempt + 1) failures
        (fun s hs => h s (List.mem_cons_of_mem _ hs)) (by simpa using hlen),
        range_map_backoff]

/-- A run of 429 responses followed by a 200, all within the attempt
budget: each 429 sleeps its `Retry-After` and the loop reissues the
request, ending in success. -/
lemma apiRequestGo_429_run (ras : List Nat) (fuel attempt failures : Nat)
    (h : ras.length < fuel) :
    apiRequestGo
        (ras.map (fun r => AttemptEvent.response 429 (some r)) ++
          [AttemptEvent.response 200 none])
        fuel attempt failures
      = (ApiResult.ok 200, { requests := ras.length + 1, sleeps := ras }) := by
  induction ras generalizing fuel attempt failures with
  | nil =>
    match fuel, h with
    | fuel + 1, _ => simp [apiRequestGo]
  | cons r ras ih =>
    match fuel, h with
    | fuel + 1, h =>
      have hih := ih fuel (attempt + 1) failures (by simpa using h)
      simp [apiRequestGo, hih, Option.getD]

/-- The poll loop on an all-`ok` prefix followed by a token-expiry
cycle: the loop runs exactly the prefix plus the fatal cycle, sets
`global_stop`, and consumes nothing after it. -/
lemma monitorLoop_tokenExpired (pre post : List CycleEvent)
    (h : ∀ e ∈ pre, e = CycleEvent.ok) :
    monitorLoop (pre ++ CycleEvent.tokenExpired :: post) 0
      = { cycles := pre.length + 1, globalStop := true } := by
  induction pre with
  | nil => simp [monitorLoop]
  | cons e pre ih =>
    have he : e = CycleEvent.ok := h e (List.mem_cons_self e pre)
    subst he
    have hih := ih (fun e he => h e (List.mem_cons_of_mem _ he))
    simp [monitorLoop, hih]

/-! ## Claim theorems -/

/-- C1: a 401 response makes `api_request` raise
`TokenExpiredException` at once — one request issued, no retry of that
request — at any attempt of its loop and with any events queued behind
it; and once a poll cycle of `monitor_campaigns` observes
`TokenExpiredException`, `global_stop` is set and the loop exits,
consuming no cycle after the fatal one. -/
theorem api401_fatal_and_monitor_stops
    (ra : Option Nat) (rest : List AttemptEvent)
    (fuel attempt failures : Nat) (hf : 0 < fuel)
    (pre post : List CycleEvent) (hpre : ∀ e ∈ pre, e = CycleEvent.ok) :
    apiRequestGo (AttemptEvent.response 401 ra :: rest) fuel attempt failures
        = (ApiResult.tokenExpired, { requests := 1, sleeps := [] })
    ∧ monitorLoop (pre ++ CycleEvent.tokenExpired :: post) 0
        = { cycles := pre.length + 1, globalStop := true } :=
  ⟨apiRequestGo_401 ra rest fuel attempt failures hf,
   monitorLoop_tokenExpired pre post hpre⟩

/-- Witness for C1: a 401 on the first attempt of a fresh
`api_request` call terminates it with one request, and a token-expiry
on the second poll cycle stops the loop after exactly two cycles even
with a cycle still queued. -/
theorem api401_fatal_and_monitor_stops_witness :
    apiRequestGo
        [AttemptEvent.response 401 none, AttemptEvent.response 200 none]
        MAX_RETRIES_API 0 0
      = (ApiResult.tokenExpired, { requests := 1, sleeps := [] })
    ∧ monitorLoop [CycleEvent.ok, CycleEvent.tokenExpired, CycleEvent.ok] 0
      = { cycles := 2, globalStop := true } :=
  api401_fatal_and_monitor_stops none [AttemptEvent.response 200 none]
    MAX_RETRIES_API 0 0 (by decide)
    [CycleEvent.ok] [CycleEvent.ok] (by decide)

/-- C2 (code bug): the `open_profiles` membership test (line 1577) and
insert (line 1585) are separate unlocked steps with driver creation in
between, so under the interleaving in which both workers run their
membership test before either inserts, BOTH workers proceed with the
same `profile_path` — the claim's "exactly one proceeds" fails.  This
theorem evaluates the two-worker race at that interleaving. -/
theorem open_profiles_acquire_race :
    schedRun [true, false, true, false]
        { held := false, w1 := WStatus.start, w2 := WStatus.start }
      = { held := true, w1 := WStatus.proceeded, w2 := WStatus.proceeded } :=
  rfl

/-- C4 counterexample: a campaign whose stop flag is set during the
run (`stopAtJoin = true`) still gets a `fail` call when the run body
ends in an unexpected exception — the claim's "never issues a fail
call ... on any of its exit paths" is false. -/
theorem run_campaign_thread_fail_despite_stop :
    (run_campaign_thread
        { data := some (1, 1), outcome := RunOutcome.otherError,
          stopAtJoin := true, finalSent := 0, finalFailed := 0 }).1
      = [FinalCall.fail ("Error")]
    ∧ ({ data := some (1, 1), outcome := RunOutcome.otherError,
         stopAtJoin := true, finalSent := 0,
         finalFailed := 0 : CampaignEnv }).stopAtJoin = true :=
  ⟨rfl, rfl⟩

/-- C4 (amended): on the normal exit path (workers joined with no
exception escaping the `try` body), a set stop flag suppresses both
the `complete` and the `fail` call; but the connection-lost and
unexpected-error exit paths issue a `fail` call regardless of the stop
flag, and token expiry re-raises with no terminal call. -/
theorem run_campaign_thread_stop_finalization (env : CampaignEnv)
    (p r : Nat) (hdata : env.data = some (p, r)) (hp : p ≠ 0)
    (hr : r ≠ 0) :
    (env.outcome = RunOutcome.normal → env.stopAtJoin = true →
      run_campaign_thread env = ([], false))
    ∧ (env.outcome = RunOutcome.connLost →
      (run_campaign_thread env).1 = [FinalCall.fail ("Connection lost")])
    ∧ (env.outcome = RunOutcome.otherError →
      (run_campaign_thread env).1 = [FinalCall.fail ("Error")])
    ∧ (env.outcome = RunOutcome.tokenExpired →
      run_campaign_thread env = ([], true)) := by
  refine ⟨?_, ?_, ?_, ?_⟩ <;> intro ho <;>
    simp [run_campaign_thread, hdata, hp, hr, ho]

/-- Witness for C4's amended theorem: a 2-profile, 3-recipient
campaign stopped mid-run whose workers join normally issues no
terminal call. -/
theorem run_campaign_thread_stop_finalization_witness :
    run_campaign_thread
        { data := some (2, 3), outcome := RunOutcome.normal,
          stopAtJoin := true, finalSent := 1, finalFailed := 0 }
      = ([], false) :=
  (run_campaign_thread_stop_finalization
    { data := some (2, 3), outcome := RunOutcome.normal,
      stopAtJoin := true, finalSent := 1, finalFailed := 0 }
    2 3 rfl (by decide) (by decide)).1 rfl rfl

/-- C7 counterexample: with the attempt ceiling `MAX_RETRIES_API = 5`,
a fifth consecutive 429 sleeps its `Retry-After` but is NOT retried:
the call returns `None` after 5 issued requests, never reaching the
queued 200 that a sixth request would have received — the claim's
unconditional "sleeps and then retries the same call" is false. -/
theorem rate_limit_no_retry_at_ceiling :
    api_request
        (List.replicate 5 (AttemptEvent.response 429 (some 2)) ++
          [AttemptEvent.response 200 none]) 0
      = (ApiResult.noResponse,
         { requests := 5, sleeps := [2, 2, 2, 2, 2] }) := by
  decide

/-- C7 (amended): a 429 makes `api_request` sleep for the response's
`Retry-After` value and then reissue the same call (in this model
every issued request carries the same `method`/`endpoint` arguments),
provided the attempt ceiling `MAX_RETRIES_API = 5` is not exhausted:
any run of fewer than 5 rate-limited responses followed by a 200
yields success, with exactly the `Retry-After` sleeps and one more
request than there were 429s.  In particular 429 with `Retry-After: 2`
then 200 waits 2 seconds and succeeds on the retry. -/
theorem rate_limit_retry_within_ceiling (ras : List Nat) (failures : Nat)
    (h : ras.length < MAX_RETRIES_API) :
    api_request
        (ras.map (fun r => AttemptEvent.response 429 (some r)) ++
          [AttemptEvent.response 200 none]) failures
      = (ApiResult.ok 200,
         { requests := ras.length + 1, sleeps := ras }) :=
  apiRequestGo_429_run ras MAX_RETRIES_API 0 failures h

/-- Witness for C7's amended theorem: the spec's own scenario — 429
with `Retry-After: 2`, then 200: one 2-second sleep, two requests,
success. -/
theorem rate_limit_retry_within_ceiling_witness :
    api_request
        [AttemptEvent.response 429 (some 2), AttemptEvent.response 200 none]
        0
      = (ApiResult.ok 200, { requests := 2, sleeps := [2] }) :=
  rate_limit_retry_within_ceiling [2] 0 (by decide)

/-- C8: `api_request` never raises on a 5xx or on a 4xx other than
401/429 — on any sequence of such responses it returns `None`; a 4xx
other than 401/429 returns `None` at once with a single request and no
sleep; and a full budget of 5xx responses is retried with one
exponential-backoff sleep per attempt up to the ceiling
`MAX_RETRIES_API = 5`, after which the call returns `None`. -/
theorem api_request_soft_failures (events : List AttemptEvent)
    (statuses : List Nat) (s : Nat) (ra : Option Nat)
    (rest : List AttemptEvent) (failures : Nat)
    (hsoft : ∀ e ∈ events, softEvent e)
    (h4a : 400 ≤ s) (h4b : s < 500) (h401 : s ≠ 401) (h429 : s ≠ 429)
    (h5 : ∀ u ∈ statuses, 500 ≤ u)
    (hlen : statuses.length = MAX_RETRIES_API) :
    (api_request events failures).1 = ApiResult.noResponse
    ∧ api_request (AttemptEvent.response s ra :: rest) failures
        = (ApiResult.noResponse, { requests := 1, sleeps := [] })
    ∧ api_request (statuses.map (fun u => AttemptEvent.response u none))
          failures
        = (ApiResult.noResponse,
           { requests := MAX_RETRIES_API,
             sleeps := (List.range MAX_RETRIES_API).map
               exponential_backoff }) := by
  refine ⟨apiRequestGo_soft events MAX_RETRIES_API 0 failures hsoft,
    apiRequestGo_4xx s ra rest MAX_RETRIES_API 0 failures h4a h4b h401 h429
      (by decide), ?_⟩
  rw [api_request, apiRequestGo_5xx_ceiling statuses MAX_RETRIES_API 0
    failures h5 (by omega)]
  simp

/-- Witness for C8: a 403 returns `None` at once; five 503s exhaust
the budget with backoff sleeps `1,2,4,8,16` and return `None`; a mixed
soft-failure sequence also ends in `None`. -/
theorem api_request_soft_failures_witness :
    (api_request [AttemptEvent.response 503 none,
        AttemptEvent.response 404 none] 0).1 = ApiResult.noResponse
    ∧ api_request [AttemptEvent.response 403 none,
          AttemptEvent.response 200 none] 0
        = (ApiResult.noResponse, { requests := 1, sleeps := [] })
    ∧ api_request ([503, 500, 502, 504, 599].map
          (fun u => AttemptEvent.response u none)) 0
        = (ApiResult.noResponse,
           { requests := MAX_RETRIES_API,
             sleeps := (List.range MAX_RETRIES_API).map
               exponential_backoff }) :=
  api_request_soft_failures
    [AttemptEvent.response 503 none, AttemptEvent.response 404 none]
    [503, 500, 502, 504, 599] 403 none
    [AttemptEvent.response 200 none] 0
    (by
      intro e he
      simp only [List.mem_cons, List.not_mem_nil, or_false] at he
      rcases he with rfl | rfl
      · exact ⟨503, none, rfl, by omega⟩
      · exact ⟨404, none, rfl, by omega⟩)
    (by decide) (by decide) (by decide) (by decide)
    (by decide) (by decide)

/-- C10: `check_connection` reports healthy (returning `True`,
resetting `connection_failures` to 0 and refreshing
`last_connection_check`) for every probe status in `[200, 500)` except
401, which raises `TokenExpiredException` with the state untouched; a
status `≥ 500` returns `False` without touching the failure counter; a
transport exception returns `False` and increments
`connection_failures`; and among statuses `≥ 200` (the final statuses
the HTTP client surfaces) only a `≥ 500` response counts as
unhealthy. -/
theorem check_connection_health_classes (st : ConnState) (now : Nat) :
    (∀ s, 200 ≤ s → s < 500 → s ≠ 401 →
      check_connection (ProbeOutcome.resp s) st now
        = (ConnResult.healthy, { failures := 0, lastCheck := now }))
    ∧ check_connection (ProbeOutcome.resp 401) st now
        = (ConnResult.tokenExpired, st)
    ∧ (∀ s, 500 ≤ s →
      check_connection (ProbeOutcome.resp s) st now
        = (ConnResult.unhealthy, st))
    ∧ check_connection ProbeOutcome.exn st now
        = (ConnResult.unhealthy, { st with failures := st.failures + 1 })
    ∧ (∀ s, 200 ≤ s →
      (check_connection (ProbeOutcome.resp s) st now).1
          = ConnResult.unhealthy → 500 ≤ s) := by
  refine ⟨?_, ?_, ?_, ?_, ?_⟩
  · intro s h1 h2 h3
    simp only [check_connection, if_neg h3]
    rw [if_pos ⟨h1, h2⟩]
  · simp [check_connection]
  · intro s h5
    simp only [check_connection]
    rw [if_neg (by omega), if_neg (by omega)]
  · simp [check_connection]
  · intro s h200 hres
    by_contra h500
    by_cases h401 : s = 401
    · subst h401
      simp [check_connection] at hres
    · simp only [check_connection, if_neg h401] at hres
      rw [if_pos ⟨h200, by omega⟩] at hres
      simp at hres

/-- Witness for C10: a 403 probe counts as healthy and resets the
failure counter; a 404 does too; a 500 is unhealthy with the counter
untouched. -/
theorem check_connection_health_classes_witness :
    check_connection (ProbeOutcome.resp 403) { failures := 4, lastCheck := 7 }
        99 = (ConnResult.healthy, { failures := 0, lastCheck := 99 })
    ∧ check_connection (ProbeOutcome.resp 404)
        { failures := 4, lastCheck := 7 } 99
        = (ConnResult.healthy, { failures := 0, lastCheck := 99 })
    ∧ check_connection (ProbeOutcome.resp 500)
        { failures := 4, lastCheck := 7 } 99
        = (ConnResult.unhealthy, { failures := 4, lastCheck := 7 }) :=
  ⟨(check_connection_health_classes { failures := 4, lastCheck := 7 } 99).1
      403 (by decide) (by decide) (by decide),
   (check_connection_health_classes { failures := 4, lastCheck := 7 } 99).1
      404 (by decide) (by decide) (by decide),
   (check_connection_health_classes
      { failures := 4, lastCheck := 7 } 99).2.2.1 500 (by decide)⟩

/-- Reading back the updated slot of `List.set`. -/
lemma getD_set_self {α : Type} (l : List α) (k : Nat) (v d : α)
    (hk : k < l.length) : (l.set k v).getD k d = v := by
  simp [List.getD_eq_getElem?_getD, List.getElem?_set, hk]

/-- Reading another slot of `List.set`. -/
lemma getD_set_other {α : Type} (l : List α) (k j : Nat) (v d : α)
    (h : j ≠ k) : (l.set k v).getD j d = l.getD j d := by
  simp [List.getD_eq_getElem?_getD, List.getElem?_set, Ne.symm h]

/-- What the enumerated `append` loop of `assignGroups` leaves in
group `j`: the starting content followed by the users whose running
index is `j` modulo `n`. -/
lemma assignGroups_getD (n j : Nat) (users : List String) (i : Nat)
    (groups : List (List String)) (hg : groups.length = n) (hj : j < n) :
    (assignGroups n groups users i).getD j []
      = groups.getD j [] ++
        ((users.enumFrom i).filter (fun p => p.1 % n = j)).map Prod.snd := by
  induction users generalizing groups i with
  | nil => simp [assignGroups]
  | cons u rest ih =>
    have hn : 0 < n := Nat.pos_of_ne_zero (by omega)
    have hmod : i % n < groups.length := by rw [hg]; exact Nat.mod_lt i hn
    rw [assignGroups, ih (i + 1)
      (groups.set (i % n) (groups.getD (i % n) [] ++ [u]))
      (by simpa [List.length_set] using hg)]
    by_cases hij : i % n = j
    · rw [hij, getD_set_self groups j _ [] (hij ▸ hmod)]
      simp only [List.enumFrom_cons, List.filter_cons, hij]
      simp [hij]
    · rw [getD_set_other groups (i % n) j _ [] (fun h => hij h.symm)]
      simp only [List.enumFrom_cons, List.filter_cons]
      simp [hij]

/-- C9: `run_campaign_thread` assigns the remaining recipient at index
`i` to the profile at index `i % N`: with `N` profiles, group `j` of
the computed partition is exactly the recipients whose enumeration
index is congruent to `j` mod `N`, in order; in particular with 3
profiles and 10 recipients the groups are indices `{0,3,6,9}`,
`{1,4,7}`, `{2,5,8}`. -/
theorem round_robin_partition (n : Nat) (remaining : List String)
    (j : Nat) (hj : j < n) :
    (user_groups n remaining).getD j []
      = (remaining.enum.filter (fun p => p.1 % n = j)).map Prod.snd
    ∧ user_groups 3
        ["r0", "r1", "r2", "r3", "r4", "r5", "r6", "r7", "r8", "r9"]
      = [["r0", "r3", "r6", "r9"], ["r1", "r4", "r7"],
         ["r2", "r5", "r8"]] := by
  constructor
  · rw [user_groups, assignGroups_getD n j remaining 0
      (List.replicate n []) (List.length_replicate n []) hj]
    simp [List.getD_eq_getElem?_getD, List.getElem?_replicate, hj,
      List.enum]
  · rfl

/-- Witness for C9: the concrete 3-profile, 10-recipient partition,
checking group 0 through the general formula. -/
theorem round_robin_partition_witness :
    (user_groups 3
        ["r0", "r1", "r2", "r3", "r4", "r5", "r6", "r7", "r8", "r9"]).getD
        0 []
      = ((["r0", "r1", "r2", "r3", "r4", "r5", "r6", "r7", "r8",
           "r9"] : List String).enum.filter
          (fun p => p.1 % 3 = 0)).map Prod.snd :=
  (round_robin_partition 3
    ["r0", "r1", "r2", "r3", "r4", "r5", "r6", "r7", "r8", "r9"] 0
    (by decide)).1

/-- The seen-set dispatch loop: the dispatched ids are exactly the
pending ids not already seen, without repetition, and the resulting
seen set is the old one plus the dispatched ids. -/
lemma dispatchSeen_spec (pending seen : List Nat) :
    (∀ a ∈ (dispatchSeen pending seen).1, a ∉ seen)
    ∧ (dispatchSeen pending seen).1.Nodup
    ∧ (∀ a, a ∈ (dispatchSeen pending seen).2 ↔
        a ∈ seen ∨ a ∈ (dispatchSeen pending seen).1) := by
  induction pending generalizing seen with
  | nil => simp [dispatchSeen]
  | cons id rest ih =>
    by_cases hid : id ∈ seen
    · simpa [dispatchSeen, hid] using ih seen
    · obtain ⟨h1, h2, h3⟩ := ih (id :: seen)
      simp only [dispatchSeen, if_neg hid]
      rcases hds : dispatchSeen rest (id :: seen) with ⟨ds, seen'⟩
      rw [hds] at h1 h2 h3
      simp only at h1 h2 h3 ⊢
      refine ⟨?_, ?_, ?_⟩
      · intro a ha
        rcases List.mem_cons.1 ha with rfl | ha
        · exact hid
        · exact fun hmem => h1 a ha (List.mem_cons_of_mem _ hmem)
      · exact List.nodup_cons.2
          ⟨fun hmem => h1 id hmem (List.mem_cons_self id seen), h2⟩
      · intro a
        rw [h3 a]
        simp only [List.mem_cons]
        tauto

/-- Projection of a tagged dispatch list onto one queue kind. -/
lemma filterMap_tagged (q : QueueKind) (l : List Nat)
    (f : QueueKind × Nat → Option Nat)
    (hf : ∀ id, f (q, id) = some id) :
    (l.map (fun id => (q, id))).filterMap f = l := by
  induction l with
  | nil => rfl
  | cons id rest ih => simp [List.filterMap_cons, hf, ih]

/-- Projection of a tagged dispatch list the filter drops. -/
lemma filterMap_tagged_none (q : QueueKind) (l : List Nat)
    (f : QueueKind × Nat → Option Nat)
    (hf : ∀ id, f (q, id) = none) :
    (l.map (fun id => (q, id))).filterMap f = [] := by
  induction l with
  | nil => rfl
  | cons id rest ih => simp [List.filterMap_cons, hf, ih]

/-- C5 counterexample: the ad-hoc unread-check queue is dispatched
without consulting `processed_requests` — a pending unread request
whose id (7) is already in the seen set is dispatched again, so the
claim that all three queues skip ids present in `processed_requests`
is false. -/
theorem unread_requests_bypass_seen_set :
    (ancillaryCycle [7] [] [] [7] 0).dispatched
      = [(QueueKind.unread, 7)] :=
  rfl

/-- C5 (amended): only the profile-open/close and Firefox
profile-management queues are deduplicated through
`processed_requests` — for them an id already in the set is never
dispatched, each id is dispatched at most once per cycle, and (when
the 10-cycle cleanup does not trigger) every dispatched id has been
added to the set; the unread-check queue dispatches every pending
request each cycle with no seen-set check. -/
theorem seen_set_dedup_profile_firefox (uq pq fq seen : List Nat)
    (counter : Nat) :
    ((ancillaryCycle uq pq fq seen counter).dispatched.filterMap
        (fun p => if p.1 = QueueKind.unread then some p.2 else none)
      = uq)
    ∧ (∀ id ∈ (ancillaryCycle uq pq fq seen counter).dispatched.filterMap
        (fun p => if p.1 = QueueKind.unread then none else some p.2),
        id ∉ seen)
    ∧ ((ancillaryCycle uq pq fq seen counter).dispatched.filterMap
        (fun p => if p.1 = QueueKind.unread then none else some p.2)).Nodup
    ∧ (counter + 1 < 10 →
      ∀ id ∈ (ancillaryCycle uq pq fq seen counter).dispatched.filterMap
        (fun p => if p.1 = QueueKind.unread then none else some p.2),
        id ∈ (ancillaryCycle uq pq fq seen counter).seen) := by
  obtain ⟨hp1, hp2, hp3⟩ := dispatchSeen_spec pq seen
  obtain ⟨hf1, hf2, hf3⟩ := dispatchSeen_spec fq (dispatchSeen pq seen).2
  simp only [ancillaryCycle, List.filterMap_append]
  rw [filterMap_tagged QueueKind.unread uq _ (fun id => rfl),
    filterMap_tagged_none QueueKind.profile (dispatchSeen pq seen).1 _
      (fun id => rfl),
    filterMap_tagged_none QueueKind.firefox
      (dispatchSeen fq (dispatchSeen pq seen).2).1 _ (fun id => rfl),
    filterMap_tagged_none QueueKind.unread uq _ (fun id => rfl),
    filterMap_tagged QueueKind.profile (dispatchSeen pq seen).1 _
      (fun id => rfl),
    filterMap_tagged QueueKind.firefox
      (dispatchSeen fq (dispatchSeen pq seen).2).1 _ (fun id => rfl)]
  refine ⟨by simp, ?_, ?_, ?_⟩
  · intro id hid
    simp only [List.nil_append, List.append_nil, List.mem_append] at hid
    rcases hid with hid | hid
    · exact hp1 id hid
    · intro hseen
      exact hf1 id hid ((hp3 id).2 (Or.inl hseen))
  · simp only [List.nil_append, List.append_nil]
    refine List.Nodup.append hp2 hf2 ?_
    intro id hidp hidf
    exact hf1 id hidf ((hp3 id).2 (Or.inr hidp))
  · intro hcnt id hid
    simp only [List.nil_append, List.append_nil, List.mem_append] at hid
    rw [if_neg (by omega)]
    rcases hid with hid | hid
    · exact (hf3 id).2 (Or.inl ((hp3 id).2 (Or.inr hid)))
    · exact (hf3 id).2 (Or.inr hid)

/-- Witness for C5's amended theorem: with seen set `{4}`,
profile queue `[2,2,3]` and Firefox queue `[3,4]`, the unread queue
`[1]` is dispatched wholesale and the deduped queues dispatch `2` and
`3` once each, leaving them in the seen set. -/
theorem seen_set_dedup_profile_firefox_witness :
    ((ancillaryCycle [1] [2, 2, 3] [3, 4] [4] 0).dispatched.filterMap
        (fun p => if p.1 = QueueKind.unread then some p.2 else none)
      = [1])
    ∧ ((ancillaryCycle [1] [2, 2, 3] [3, 4] [4] 0).dispatched.filterMap
        (fun p => if p.1 = QueueKind.unread then none else some p.2)).Nodup
    ∧ (∀ id ∈ (ancillaryCycle [1] [2, 2, 3] [3, 4] [4]
          0).dispatched.filterMap
        (fun p => if p.1 = QueueKind.unread then none else some p.2),
        id ∈ (ancillaryCycle [1] [2, 2, 3] [3, 4] [4] 0).seen) :=
  ⟨(seen_set_dedup_profile_firefox [1] [2, 2, 3] [3, 4] [4] 0).1,
   (seen_set_dedup_profile_firefox [1] [2, 2, 3] [3, 4] [4] 0).2.2.1,
   (seen_set_dedup_profile_firefox [1] [2, 2, 3] [3, 4] [4] 0).2.2.2
     (by decide)⟩

/-! ## Infrastructure for the `run_profile` proofs -/

/-- Canonical form of `popStop`. -/
lemma popStop_eq (env : RPEnv) :
    popStop env
      = (env.stops.headD false, { env with stops := env.stops.tail }) := by
  obtain ⟨s, c, a, f, sd, q⟩ := env
  cases s <;> rfl

/-- Canonical form of `popCreate`. -/
lemma popCreate_eq (env : RPEnv) :
    popCreate env
      = (env.creates.headD none,
         { env with creates := env.creates.tail }) := by
  obtain ⟨s, c, a, f, sd, q⟩ := env
  cases c <;> rfl

/-- Canonical form of `popAlive`. -/
lemma popAlive_eq (env : RPEnv) :
    popAlive env
      = (env.alives.headD true, { env with alives := env.alives.tail }) := by
  obtain ⟨s, c, a, f, sd, q⟩ := env
  cases a <;> rfl

/-- Canonical form of `popFetch`. -/
lemma popFetch_eq (env : RPEnv) :
    popFetch env
      = (env.fetches.headD true,
         { env with fetches := env.fetches.tail }) := by
  obtain ⟨s, c, a, f, sd, q⟩ := env
  cases f <;> rfl

/-- Canonical form of `popSend`. -/
lemma popSend_eq (env : RPEnv) :
    popSend env
      = (env.sends.headD false, { env with sends := env.sends.tail }) := by
  obtain ⟨s, c, a, f, sd, q⟩ := env
  cases sd <;> rfl

/-- Canonical form of `popQuit`. -/
lemma popQuit_eq (env : RPEnv) :
    popQuit env
      = (env.quits.headD true, { env with quits := env.quits.tail }) := by
  obtain ⟨s, c, a, f, sd, q⟩ := env
  cases q <;> rfl

/-- Every queued `get_processed_recipients` call succeeds (returns the
authoritative set). -/
def AllFetch (env : RPEnv) : Prop := ∀ b ∈ env.fetches, b = true

/-- Under `AllFetch`, the next fetch succeeds. -/
lemma AllFetch.headD {env : RPEnv} (h : AllFetch env) :
    env.fetches.headD true = true := by
  cases hf : env.fetches with
  | nil => rfl
  | cons b rest => exact h b (hf ▸ List.mem_cons_self b rest)

/-- `AllFetch` survives consuming a fetch event. -/
lemma allFetch_tail {env : RPEnv} (h : AllFetch env) :
    AllFetch { env with fetches := env.fetches.tail } := by
  intro b hb
  exact h b (List.mem_of_mem_tail hb)

/-- `AllFetch` only looks at the `fetches` field. -/
lemma allFetch_congr {env env' : RPEnv} (h : AllFetch env)
    (he : env'.fetches = env.fetches) : AllFetch env' := by
  intro b hb
  exact h b (he ▸ hb)

/-- The driver ids the environment can still create: fresh relative to
`base` (the drivers list of other workers) and pairwise distinct.
Driver objects have distinct identities, so any real environment
satisfies this. -/
def CreatesOk (env : RPEnv) (base : List Nat) : Prop :=
  (env.creates.filterMap id).Nodup ∧
    ∀ c ∈ env.creates.filterMap id, c ∉ base

/-- A driver id the environment will not create again. -/
def DFresh (env : RPEnv) (d : Nat) : Prop :=
  d ∉ env.creates.filterMap id

/-- `CreatesOk` only looks at the `creates` field. -/
lemma createsOk_congr {env env' : RPEnv} {base : List Nat}
    (h : CreatesOk env base) (he : env'.creates = env.creates) :
    CreatesOk env' base := by
  constructor
  · rw [he]; exact h.1
  · rw [he]; exact h.2

/-- `DFresh` only looks at the `creates` field. -/
lemma dFresh_congr {env env' : RPEnv} {d : Nat} (h : DFresh env d)
    (he : env'.creates = env.creates) : DFresh env' d := by
  rw [DFresh, he]; exact h

/-- Consuming a creation event preserves `CreatesOk`. -/
lemma createsOk_tail {env : RPEnv} {base : List Nat}
    (h : CreatesOk env base) :
    CreatesOk { env with creates := env.creates.tail } base := by
  cases hc : env.creates with
  | nil => exact ⟨by simp, by simp⟩
  | cons o rest =>
    have h1 := h.1
    have h2 := h.2
    rw [hc] at h1 h2
    cases o with
    | none =>
      simp only [List.filterMap_cons, id] at h1 h2
      exact ⟨h1, h2⟩
    | some v =>
      simp only [List.filterMap_cons, id] at h1 h2
      exact ⟨(List.nodup_cons.1 h1).2,
        fun c hc' => h2 c (List.mem_cons_of_mem _ hc')⟩

/-- Consuming a creation event preserves `DFresh`. -/
lemma dFresh_tail {env : RPEnv} {d : Nat} (h : DFresh env d) :
    DFresh { env with creates := env.creates.tail } d := by
  rw [DFresh] at h ⊢
  intro hmem
  apply h
  cases hc : env.creates with
  | nil => rw [hc] at hmem; simp at hmem
  | cons o rest =>
    rw [hc] at hmem
    simp only [List.tail_cons] at hmem
    cases o with
    | none => show d ∈ List.filterMap id (none :: rest); simpa using hmem
    | some v =>
        show d ∈ List.filterMap id (some v :: rest)
        show d ∈ v :: List.filterMap id rest
        exact List.mem_cons_of_mem _ hmem

/-- A successful creation yields a driver fresh for `base` and never
created again, and preserves `CreatesOk`. -/
lemma CreatesOk.head {env : RPEnv} {base : List Nat} {d : Nat}
    (h : CreatesOk env base) (hd : env.creates.headD none = some d) :
    d ∉ base ∧ DFresh { env with creates := env.creates.tail } d := by
  cases hc : env.creates with
  | nil => rw [hc] at hd; simp at hd
  | cons o rest =>
    rw [hc] at hd
    simp only [List.headD_cons] at hd
    subst hd
    have h1 := h.1
    have h2 := h.2
    rw [hc] at h1 h2
    simp only [List.filterMap_cons, id] at h1 h2
    refine ⟨h2 d (List.mem_cons_self d _), ?_⟩
    rw [DFresh]
    simp only [List.tail_cons]
    exact (List.nodup_cons.1 h1).1

/-- `sendCheckAndSend` leaves `open_profiles`, the drivers list and
the creation queue untouched. -/
lemma sendCheckAndSend_frame (processed0 : List String) (u : String)
    (st : RPState) (env : RPEnv) :
    (sendCheckAndSend processed0 u st env).1.openProfiles
        = st.openProfiles
    ∧ (sendCheckAndSend processed0 u st env).1.drivers = st.drivers
    ∧ (sendCheckAndSend processed0 u st env).2.creates = env.creates := by
  rw [sendCheckAndSend, popFetch_eq]
  dsimp only
  by_cases hmem : u ∈ fetchNow processed0 st (env.fetches.headD true)
  · rw [if_pos hmem]
    exact ⟨rfl, rfl, rfl⟩
  · rw [if_neg hmem, popSend_eq]
    dsimp only
    cases env.sends.headD false with
    | true => rw [if_pos rfl]; exact ⟨rfl, rfl, rfl⟩
    | false => rw [if_neg (by simp)]; exact ⟨rfl, rfl, rfl⟩

/-- What one pre-send check plus send does to the traces, when the
fetch succeeds: a recipient already in the authoritative set is
skipped; otherwise the attempt (and on success the send) is recorded
for a recipient outside both the processed set and the previous
sends. -/
lemma sendCheckAndSend_sent (processed0 : List String) (u : String)
    (st : RPState) (env : RPEnv) (hA : AllFetch env)
    (hN : st.sentOk.Nodup) (hP : ∀ v ∈ st.sentOk, v ∉ processed0) :
    (sendCheckAndSend processed0 u st env).1.sentOk.Nodup
    ∧ (∀ v ∈ (sendCheckAndSend processed0 u st env).1.sentOk,
        v ∉ processed0)
    ∧ (∀ v ∈ (sendCheckAndSend processed0 u st env).1.sentOk,
        v ∈ st.sentOk ∨ v = u)
    ∧ (∀ v ∈ (sendCheckAndSend processed0 u st env).1.attempts,
        v ∈ st.attempts ∨ (v = u ∧ v ∉ processed0))
    ∧ AllFetch (sendCheckAndSend processed0 u st env).2 := by
  rw [sendCheckAndSend, popFetch_eq, hA.headD]
  dsimp only
  by_cases hmem : u ∈ fetchNow processed0 st true
  · rw [if_pos hmem]
    exact ⟨hN, hP, fun v hv => Or.inl hv, fun v hv => Or.inl hv, (allFetch_tail hA)⟩
  · rw [if_neg hmem, popSend_eq]
    dsimp only
    have hup : u ∉ processed0 ∧ u ∉ st.sentOk := by
      simpa [fetchNow, not_or] using hmem
    have hAf : AllFetch
        { { env with fetches := env.fetches.tail } with
          sends := env.sends.tail } := allFetch_congr (allFetch_tail hA) rfl
    cases env.sends.headD false with
    | true =>
      rw [if_pos rfl]
      refine ⟨?_, ?_, ?_, ?_, hAf⟩
      · exact List.Nodup.append hN (List.nodup_singleton u)
          (by simpa [List.disjoint_singleton] using hup.2)
      · intro v hv
        rcases List.mem_append.1 hv with hv | hv
        · exact hP v hv
        · rw [List.mem_singleton.1 hv]; exact hup.1
      · intro v hv
        rcases List.mem_append.1 hv with hv | hv
        · exact Or.inl hv
        · exact Or.inr (List.mem_singleton.1 hv)
      · intro v hv
        rcases List.mem_append.1 hv with hv | hv
        · exact Or.inl hv
        · exact Or.inr ⟨List.mem_singleton.1 hv,
            List.mem_singleton.1 hv ▸ hup.1⟩
    | false =>
      rw [if_neg (by simp)]
      refine ⟨hN, hP, fun v hv => Or.inl hv, ?_, hAf⟩
      intro v hv
      rcases List.mem_append.1 hv with hv | hv
      · exact Or.inl hv
      · exact Or.inr ⟨List.mem_singleton.1 hv,
          List.mem_singleton.1 hv ▸ hup.1⟩

/-- What the recipient loop does to the send traces, assuming every
processed-set fetch succeeds: successful sends stay duplicate-free and
outside the initial processed set, and both traces only grow by
members of the worked list. -/
lemma sendLoop_sent (processed0 : List String) (us : List String) :
    ∀ (d : Nat) (st : RPState) (env : RPEnv),
    AllFetch env → st.sentOk.Nodup → (∀ u ∈ st.sentOk, u ∉ processed0) →
    ((sendLoop processed0 us d st env).1.sentOk.Nodup
    ∧ (∀ u ∈ (sendLoop processed0 us d st env).1.sentOk, u ∉ processed0)
    ∧ (∀ u ∈ (sendLoop processed0 us d st env).1.sentOk,
        u ∈ st.sentOk ∨ u ∈ us)
    ∧ (∀ u ∈ (sendLoop processed0 us d st env).1.attempts,
        u ∈ st.attempts ∨ (u ∈ us ∧ u ∉ processed0))
    ∧ AllFetch (sendLoop processed0 us d st env).2.1) := by
  induction us with
  | nil =>
    intro d st env hA hN hP
    rw [sendLoop]
    exact ⟨hN, hP, fun u hu => Or.inl hu, fun u hu => Or.inl hu, hA⟩
  | cons u rest ih =>
    intro d st env hA hN hP
    rw [sendLoop, popStop_eq]
    dsimp only
    cases hstop : env.stops.headD false with
    | true =>
      rw [if_pos rfl]
      exact ⟨hN, hP, fun v hv => Or.inl hv, fun v hv => Or.inl hv,
        allFetch_congr hA rfl⟩
    | false =>
      rw [if_neg (by simp), popAlive_eq]
      dsimp only
      cases halive : env.alives.headD true with
      | true =>
        rw [if_pos rfl]
        dsimp only
        have hcs := sendCheckAndSend_sent processed0 u st
          { env with stops := env.stops.tail, alives := env.alives.tail }
          (allFetch_congr hA rfl) hN hP
        rcases hres : sendCheckAndSend processed0 u st
          { env with stops := env.stops.tail,
                     alives := env.alives.tail } with ⟨st4, env4⟩
        rw [hres] at hcs
        dsimp only at hcs ⊢
        have ihh := ih d st4 env4 hcs.2.2.2.2 hcs.1 hcs.2.1
        refine ⟨ihh.1, ihh.2.1, ?_, ?_, ihh.2.2.2.2⟩
        · intro v hv
          rcases ihh.2.2.1 v hv with hv' | hv'
          · rcases hcs.2.2.1 v hv' with h | h
            · exact Or.inl h
            · exact Or.inr (h ▸ List.mem_cons_self u rest)
          · exact Or.inr (List.mem_cons_of_mem u hv')
        · intro v hv
          rcases ihh.2.2.2.1 v hv with hv' | hv'
          · rcases hcs.2.2.2.1 v hv' with h | h
            · exact Or.inl h
            · exact Or.inr ⟨h.1 ▸ List.mem_cons_self u rest, h.2⟩
          · exact Or.inr ⟨List.mem_cons_of_mem u hv'.1, hv'.2⟩
      | false =>
        rw [if_neg (by simp), restartDriver, popCreate_eq]
        dsimp only
        cases hcre : env.creates.headD none with
        | none =>
          exact ⟨hN, hP, fun v hv => Or.inl hv, fun v hv => Or.inl hv,
            allFetch_congr hA rfl⟩
        | some d2 =>
          dsimp only
          have hcs := sendCheckAndSend_sent processed0 u
            { st with drivers := st.drivers.erase d ++ [d2] }
            { env with stops := env.stops.tail,
                       alives := env.alives.tail,
                       creates := env.creates.tail }
            (allFetch_congr hA rfl) hN hP
          rcases hres : sendCheckAndSend processed0 u
            { st with drivers := st.drivers.erase d ++ [d2] }
            { env with stops := env.stops.tail,
                       alives := env.alives.tail,
                       creates := env.creates.tail } with ⟨st4, env4⟩
          rw [hres] at hcs
          dsimp only at hcs ⊢
          have ihh := ih d2 st4 env4 hcs.2.2.2.2 hcs.1 hcs.2.1
          refine ⟨ihh.1, ihh.2.1, ?_, ?_, ihh.2.2.2.2⟩
          · intro v hv
            rcases ihh.2.2.1 v hv with hv' | hv'
            · rcases hcs.2.2.1 v hv' with h | h
              · exact Or.inl h
              · exact Or.inr (h ▸ List.mem_cons_self u rest)
            · exact Or.inr (List.mem_cons_of_mem u hv')
          · intro v hv
            rcases ihh.2.2.2.1 v hv with hv' | hv'
            · rcases hcs.2.2.2.1 v hv' with h | h
              · exact Or.inl h
              · exact Or.inr ⟨h.1 ▸ List.mem_cons_self u rest, h.2⟩
            · exact Or.inr ⟨List.mem_cons_of_mem u hv'.1, hv'.2⟩

/-- State component of an iteration-body outcome. -/
def bodySt : (RPState × RPEnv) ⊕ (Option Nat × RPState × RPEnv) → RPState
  | Sum.inl (st, _) => st
  | Sum.inr (_, st, _) => st

/-- Environment component of an iteration-body outcome. -/
def bodyEnv : (RPState × RPEnv) ⊕ (Option Nat × RPState × RPEnv) → RPEnv
  | Sum.inl (_, env) => env
  | Sum.inr (_, _, env) => env

/-- Membership in the remaining shard implies membership in the
shard. -/
lemma remainingOf_subset {processed0 users : List String} {st : RPState}
    {fok : Bool} {u : String} (h : u ∈ remainingOf processed0 users st fok) :
    u ∈ users :=
  List.mem_of_mem_filter h

/-- `finalCleanup` leaves the send traces and the fetch queue
untouched. -/
lemma finalCleanup_sent (path : String) (dr : Option Nat) (st : RPState)
    (env : RPEnv) :
    (finalCleanup path dr st env).1.sentOk = st.sentOk
    ∧ (finalCleanup path dr st env).1.attempts = st.attempts
    ∧ (finalCleanup path dr st env).2.fetches = env.fetches := by
  cases dr with
  | none => exact ⟨rfl, rfl, rfl⟩
  | some d =>
    rw [finalCleanup, popQuit_eq]
    exact ⟨rfl, rfl, rfl⟩

/-- What one iteration body does to the send traces, assuming all
fetches succeed. -/
lemma rpBody_sent (path : String) (processed0 users : List String)
    (d : Nat) (st : RPState) (env : RPEnv) (hA : AllFetch env)
    (hN : st.sentOk.Nodup) (hP : ∀ u ∈ st.sentOk, u ∉ processed0) :
    (bodySt (rpBody path processed0 users d st env)).sentOk.Nodup
    ∧ (∀ u ∈ (bodySt (rpBody path processed0 users d st env)).sentOk,
        u ∉ processed0)
    ∧ (∀ u ∈ (bodySt (rpBody path processed0 users d st env)).sentOk,
        u ∈ st.sentOk ∨ u ∈ users)
    ∧ (∀ u ∈ (bodySt (rpBody path processed0 users d st env)).attempts,
        u ∈ st.attempts ∨ (u ∈ users ∧ u ∉ processed0))
    ∧ AllFetch (bodyEnv (rpBody path processed0 users d st env)) := by
  rw [rpBody, popFetch_eq, hA.headD]
  dsimp only
  have hsl := sendLoop_sent processed0
    (remainingOf processed0 users st true) d st
    { env with fetches := env.fetches.tail } (allFetch_tail hA) hN hP
  rcases hs : sendLoop processed0 (remainingOf processed0 users st true)
    d st { env with fetches := env.fetches.tail } with
    ⟨st1, env2, d1, exit⟩
  rw [hs] at hsl
  dsimp only at hsl
  have hmems : ∀ u ∈ st1.sentOk, u ∈ st.sentOk ∨ u ∈ users :=
    fun u hu => (hsl.2.2.1 u hu).imp id remainingOf_subset
  have hmema : ∀ u ∈ st1.attempts,
      u ∈ st.attempts ∨ (u ∈ users ∧ u ∉ processed0) :=
    fun u hu => (hsl.2.2.2.1 u hu).imp id
      (fun h => ⟨remainingOf_subset h.1, h.2⟩)
  cases exit with
  | finished =>
    dsimp only
    rw [popQuit_eq]
    dsimp only
    cases hq : env2.quits.headD true with
    | true =>
      rw [if_pos rfl]
      exact ⟨hsl.1, hsl.2.1, hmems, hmema, allFetch_congr hsl.2.2.2.2 rfl⟩
    | false =>
      rw [if_neg (by simp)]
      exact ⟨hsl.1, hsl.2.1, hmems, hmema, allFetch_congr hsl.2.2.2.2 rfl⟩
  | profileExn =>
    dsimp only
    rw [popQuit_eq]
    dsimp only
    exact ⟨hsl.1, hsl.2.1, hmems, hmema, allFetch_congr hsl.2.2.2.2 rfl⟩

/-- What the whole `while` loop does to the send traces, assuming all
fetches succeed. -/
lemma rpLoop_sent (path : String) (processed0 users : List String) :
    ∀ (fuel : Nat) (dr : Option Nat) (st : RPState) (env : RPEnv),
    AllFetch env → st.sentOk.Nodup → (∀ u ∈ st.sentOk, u ∉ processed0) →
    ((rpLoop path processed0 users fuel dr st env).1.sentOk.Nodup
    ∧ (∀ u ∈ (rpLoop path processed0 users fuel dr st env).1.sentOk,
        u ∉ processed0)
    ∧ (∀ u ∈ (rpLoop path processed0 users fuel dr st env).1.sentOk,
        u ∈ st.sentOk ∨ u ∈ users)
    ∧ (∀ u ∈ (rpLoop path processed0 users fuel dr st env).1.attempts,
        u ∈ st.attempts ∨ (u ∈ users ∧ u ∉ processed0))) := by
  intro fuel
  induction fuel with
  | zero =>
    intro dr st env hA hN hP
    rw [rpLoop]
    obtain ⟨h1, h2, _⟩ := finalCleanup_sent path dr st env
    rw [h1, h2]
    exact ⟨hN, hP, fun u hu => Or.inl hu, fun u hu => Or.inl hu⟩
  | succ fuel ih =>
    intro dr st env hA hN hP
    rw [rpLoop, popStop_eq]
    dsimp only
    cases hstop : env.stops.headD false with
    | true =>
      rw [if_pos rfl]
      obtain ⟨h1, h2, _⟩ := finalCleanup_sent path dr st
        { env with stops := env.stops.tail }
      rw [h1, h2]
      exact ⟨hN, hP, fun u hu => Or.inl hu, fun u hu => Or.inl hu⟩
    | false =>
      rw [if_neg (by simp)]
      have hstep : ∀ (d2 : Nat) (st2 : RPState) (env2 : RPEnv),
          AllFetch env2 → st2.sentOk = st.sentOk →
          st2.attempts = st.attempts →
          ((match rpBody path processed0 users d2 st2 env2 with
            | Sum.inl (st3, env3) => (st3, env3)
            | Sum.inr (dr3, st3, env3) =>
                rpLoop path processed0 users fuel dr3 st3
                  env3).1.sentOk.Nodup
          ∧ (∀ u ∈ (match rpBody path processed0 users d2 st2 env2 with
              | Sum.inl (st3, env3) => (st3, env3)
              | Sum.inr (dr3, st3, env3) =>
                  rpLoop path processed0 users fuel dr3 st3
                    env3).1.sentOk, u ∉ processed0)
          ∧ (∀ u ∈ (match rpBody path processed0 users d2 st2 env2 with
              | Sum.inl (st3, env3) => (st3, env3)
              | Sum.inr (dr3, st3, env3) =>
                  rpLoop path processed0 users fuel dr3 st3
                    env3).1.sentOk, u ∈ st.sentOk ∨ u ∈ users)
          ∧ (∀ u ∈ (match rpBody path processed0 users d2 st2 env2 with
              | Sum.inl (st3, env3) => (st3, env3)
              | Sum.inr (dr3, st3, env3) =>
                  rpLoop path processed0 users fuel dr3 st3
                    env3).1.attempts,
              u ∈ st.attempts ∨ (u ∈ users ∧ u ∉ processed0))) := by
        intro d2 st2 env2 hA2 hso hat
        have hb := rpBody_sent path processed0 users d2 st2 env2 hA2
          (hso ▸ hN) (hso ▸ hP)
        rw [hso, hat] at hb
        rcases hrb : rpBody path processed0 users d2 st2 env2 with
          ⟨st3, env3⟩ | ⟨dr3, st3, env3⟩
        · rw [hrb] at hb
          dsimp only [bodySt, bodyEnv] at hb
          exact ⟨hb.1, hb.2.1, hb.2.2.1, hb.2.2.2.1⟩
        · rw [hrb] at hb
          dsimp only [bodySt, bodyEnv] at hb
          have ihh := ih dr3 st3 env3 hb.2.2.2.2 hb.1 hb.2.1
          refine ⟨ihh.1, ihh.2.1, ?_, ?_⟩
          · intro u hu
            rcases ihh.2.2.1 u hu with hu' | hu'
            · exact hb.2.2.1 u hu'
            · exact Or.inr hu'
          · intro u hu
            rcases ihh.2.2.2 u hu with hu' | hu'
            · exact hb.2.2.2.1 u hu'
            · exact Or.inr hu'
      match dr with
      | some d => exact hstep d st _ (allFetch_congr hA rfl) rfl rfl
      | none =>
        dsimp only
        by_cases hopen : path ∈ st.openProfiles
        · rw [if_pos hopen]
          exact ⟨hN, hP, fun u hu => Or.inl hu, fun u hu => Or.inl hu⟩
        · rw [if_neg hopen, popCreate_eq]
          dsimp only
          cases hcre : env.creates.headD none with
          | none =>
            have := ih none st
              { env with stops := env.stops.tail,
                         creates := env.creates.tail }
              (allFetch_congr hA rfl) hN hP
            exact this
          | some d =>
            dsimp only
            exact hstep d _ _ (allFetch_congr hA rfl) rfl rfl

/-- C3: within one `run_profile` call — across driver restarts and
retry attempts — every recipient of the worker's assigned list is
successfully sent to at most once, provided every
`get_processed_recipients` call succeeds: immediately before each send
the worker re-fetches the authoritative processed set and skips (the
`continue` of line 1630) any recipient already present in the fetched
set, so the trace of successful sends is duplicate-free, contained in
the assigned list, and disjoint from the initially-processed set; every
send attempt is likewise confined to unprocessed members of the
list. -/
theorem recipient_sent_at_most_once (path : String)
    (processed0 users : List String) (maxRetries : Nat) (st : RPState)
    (env : RPEnv) (hA : AllFetch env) (h0 : st.sentOk = [])
    (h1 : st.attempts = []) :
    (run_profile path processed0 users maxRetries st env).1.sentOk.Nodup
    ∧ (∀ u ∈ (run_profile path processed0 users maxRetries st
        env).1.sentOk, u ∈ users ∧ u ∉ processed0)
    ∧ (∀ u ∈ (run_profile path processed0 users maxRetries st
        env).1.attempts, u ∈ users ∧ u ∉ processed0) := by
  have h := rpLoop_sent path processed0 users maxRetries none st env hA
    (h0 ▸ List.nodup_nil) (by rw [h0]; intro u hu; simp at hu)
  rw [h0, h1] at h
  refine ⟨h.1, ?_, ?_⟩
  · intro u hu
    rcases h.2.2.1 u hu with hu' | hu'
    · simp at hu'
    · exact ⟨hu', h.2.1 u hu⟩
  · intro u hu
    rcases h.2.2.2 u hu with hu' | hu'
    · simp at hu'
    · exact hu'

/-- Witness for C3: a two-recipient shard with recipient `a` already
processed: the worker sends only to `b`, once. -/
theorem recipient_sent_at_most_once_witness :
    AllFetch { stops := [], creates := [some 1], alives := [],
               fetches := [true, true, true], sends := [true],
               quits := [] }
    ∧ ((run_profile ("p") [("a")] [("a"), ("b")] 3
          { openProfiles := [], drivers := [], sentOk := [],
            attempts := [] }
          { stops := [], creates := [some 1], alives := [],
            fetches := [true, true, true], sends := [true],
            quits := [] }).1.sentOk.Nodup
      ∧ (∀ u ∈ (run_profile ("p") [("a")] [("a"), ("b")] 3
          { openProfiles := [], drivers := [], sentOk := [],
            attempts := [] }
          { stops := [], creates := [some 1], alives := [],
            fetches := [true, true, true], sends := [true],
            quits := [] }).1.sentOk, u ∈ [("a"), ("b")] ∧ u ∉ [("a")])
      ∧ (∀ u ∈ (run_profile ("p") [("a")] [("a"), ("b")] 3
          { openProfiles := [], drivers := [], sentOk := [],
            attempts := [] }
          { stops := [], creates := [some 1], alives := [],
            fetches := [true, true, true], sends := [true],
            quits := [] }).1.attempts, u ∈ [("a"), ("b")] ∧ u ∉ [("a")])) :=
  ⟨by
     show ∀ b ∈ [true, true, true], b = true
     decide,
   recipient_sent_at_most_once ("p") [("a")] [("a"), ("b")] 3
     { openProfiles := [], drivers := [], sentOk := [], attempts := [] }
     { stops := [], creates := [some 1], alives := [],
       fetches := [true, true, true], sends := [true], quits := [] }
     (by
       show ∀ b ∈ [true, true, true], b = true
       decide) rfl rfl⟩

/-- What the recipient loop does to `open_profiles` and the drivers
list: `open_profiles` is untouched; relative to the other workers'
drivers `base`, the list carries at most this worker's current driver,
which on a `ProfileException` exit has already been detached. -/
lemma sendLoop_frame (processed0 : List String) (base : List Nat)
    (us : List String) :
    ∀ (d : Nat) (st : RPState) (env : RPEnv) (st' : RPState)
      (env' : RPEnv) (d' : Nat) (ex : BodyExit),
    sendLoop processed0 us d st env = (st', env', d', ex) →
    (st.drivers = base ∨ st.drivers = base ++ [d]) → d ∉ base →
    DFresh env d → CreatesOk env base →
    (st'.openProfiles = st.openProfiles
    ∧ CreatesOk env' base
    ∧ (ex = BodyExit.finished →
        (st'.drivers = base ∨ st'.drivers = base ++ [d'])
        ∧ d' ∉ base ∧ DFresh env' d')
    ∧ (ex = BodyExit.profileExn → st'.drivers = base ∧ d' ∉ base)) := by
  induction us with
  | nil =>
    intro d st env st' env' d' ex heq hdrv hd hf hc
    rw [sendLoop] at heq
    simp only [Prod.mk.injEq] at heq
    obtain ⟨rfl, rfl, rfl, rfl⟩ := heq
    exact ⟨rfl, hc, fun _ => ⟨hdrv, hd, hf⟩, fun h => by simp at h⟩
  | cons u rest ih =>
    intro d st env st' env' d' ex heq hdrv hd hf hc
    rw [sendLoop, popStop_eq] at heq
    dsimp only at heq
    cases hstop : env.stops.headD false with
    | true =>
      rw [hstop, if_pos rfl] at heq
      simp only [Prod.mk.injEq] at heq
      obtain ⟨rfl, rfl, rfl, rfl⟩ := heq
      exact ⟨rfl, createsOk_congr hc rfl,
        fun _ => ⟨hdrv, hd, dFresh_congr hf rfl⟩, fun h => by simp at h⟩
    | false =>
      rw [hstop, if_neg (by simp), popAlive_eq] at heq
      dsimp only at heq
      cases halive : env.alives.headD true with
      | true =>
        rw [halive, if_pos rfl] at heq
        dsimp only at heq
        rcases hres : sendCheckAndSend processed0 u st
          { env with stops := env.stops.tail,
                     alives := env.alives.tail } with ⟨st4, env4⟩
        rw [hres] at heq
        dsimp only at heq
        obtain ⟨hfr1, hfr2, hfr3⟩ := sendCheckAndSend_frame processed0 u st
          { env with stops := env.stops.tail,
                     alives := env.alives.tail }
        rw [hres] at hfr1 hfr2 hfr3
        dsimp only at hfr1 hfr2 hfr3
        have := ih d st4 env4 st' env' d' ex heq
          (by rw [hfr2]; exact hdrv) hd
          (dFresh_congr (dFresh_congr hf rfl) hfr3) (createsOk_congr (createsOk_congr hc rfl) hfr3)
        exact ⟨this.1.trans hfr1, this.2⟩
      | false =>
        rw [halive, if_neg (by simp), restartDriver, popCreate_eq] at heq
        dsimp only at heq
        have herase : st.drivers.erase d = base := by
          rcases hdrv with h | h
          · rw [h]; exact List.erase_of_not_mem hd
          · rw [h, List.erase_append_right _ hd]
            simp
        cases hcre : env.creates.headD none with
        | none =>
          rw [hcre] at heq
          dsimp only at heq
          simp only [Prod.mk.injEq] at heq
          obtain ⟨rfl, rfl, rfl, rfl⟩ := heq
          refine ⟨rfl, createsOk_tail (createsOk_congr hc rfl), fun h => by simp at h,
            fun _ => ⟨?_, hd⟩⟩
          exact herase
        | some d2 =>
          rw [hcre] at heq
          dsimp only at heq
          have hcE : CreatesOk
              { env with stops := env.stops.tail,
                         alives := env.alives.tail } base := createsOk_congr hc rfl
          obtain ⟨hd2base, hd2fresh⟩ := hcE.head hcre
          rcases hres : sendCheckAndSend processed0 u
            { st with drivers := st.drivers.erase d ++ [d2] }
            { env with stops := env.stops.tail,
                       alives := env.alives.tail,
                       creates := env.creates.tail } with ⟨st4, env4⟩
          rw [hres] at heq
          dsimp only at heq
          obtain ⟨hfr1, hfr2, hfr3⟩ := sendCheckAndSend_frame processed0 u
            { st with drivers := st.drivers.erase d ++ [d2] }
            { env with stops := env.stops.tail,
                       alives := env.alives.tail,
                       creates := env.creates.tail }
          rw [hres] at hfr1 hfr2 hfr3
          dsimp only at hfr1 hfr2 hfr3
          have := ih d2 st4 env4 st' env' d' ex heq
            (by rw [hfr2]; show st.drivers.erase d ++ [d2] = base ∨
                st.drivers.erase d ++ [d2] = base ++ [d2]
                rw [herase]; exact Or.inr rfl)
            hd2base (dFresh_congr hd2fresh hfr3)
            (createsOk_congr (createsOk_tail (createsOk_congr hc rfl)) hfr3)
          exact ⟨this.1.trans (hfr1.trans rfl), this.2⟩

/-- What one iteration body does to the lease state: on every outcome
the worker's path has been discarded from `open_profiles` and its
driver detached from the drivers list; a carried-over driver (the
quit-raised case) is fresh. -/
lemma rpBody_frame (path : String) (processed0 users : List String)
    (base : List Nat) (open0 : List String) :
    ∀ (d : Nat) (st : RPState) (env : RPEnv)
      (out : (RPState × RPEnv) ⊕ (Option Nat × RPState × RPEnv)),
    rpBody path processed0 users d st env = out →
    (st.openProfiles = open0 ∨ st.openProfiles = path :: open0) →
    path ∉ open0 →
    (st.drivers = base ∨ st.drivers = base ++ [d]) → d ∉ base →
    DFresh env d → CreatesOk env base →
    ((bodySt out).openProfiles = open0
    ∧ (bodySt out).drivers = base
    ∧ CreatesOk (bodyEnv out) base
    ∧ ∀ d2 st2 env2, out = Sum.inr (some d2, st2, env2) →
        d2 ∉ base ∧ DFresh env2 d2) := by
  intro d st env out heq hopen hpath hdrv hd hf hc
  rw [rpBody, popFetch_eq] at heq
  rcases hs : sendLoop processed0
      (remainingOf processed0 users st (env.fetches.headD true)) d st
      { env with fetches := env.fetches.tail } with ⟨st1, env2, d1, exit⟩
  rw [hs] at heq
  dsimp only at heq
  have hsl := sendLoop_frame processed0 base
    (remainingOf processed0 users st (env.fetches.headD true)) d st
    { env with fetches := env.fetches.tail } st1 env2 d1 exit hs hdrv hd
    (dFresh_congr hf rfl) (createsOk_congr hc rfl)
  have hopen1 : st1.openProfiles.erase path = open0 := by
    rw [hsl.1]
    rcases hopen with h | h
    · rw [h]; exact List.erase_of_not_mem hpath
    · rw [h]; exact List.erase_cons_head path open0
  cases exit with
  | finished =>
    obtain ⟨hdr, hd1, hf1⟩ := hsl.2.2.1 rfl
    have hdrv1 : st1.drivers.erase d1 = base := by
      rcases hdr with h | h
      · rw [h]; exact List.erase_of_not_mem hd1
      · rw [h, List.erase_append_right _ hd1]; simp
    dsimp only at heq
    rw [popQuit_eq] at heq
    dsimp only at heq
    cases hq : env2.quits.headD true with
    | true =>
      rw [hq, if_pos rfl] at heq
      subst heq
      refine ⟨hopen1, hdrv1, createsOk_congr hsl.2.1 rfl, ?_⟩
      intro d2 st2 env2' hout
      simp at hout
    | false =>
      rw [hq, if_neg (by simp)] at heq
      subst heq
      refine ⟨hopen1, hdrv1, createsOk_congr hsl.2.1 rfl, ?_⟩
      intro d2 st2 env2' hout
      simp only [Sum.inr.injEq, Prod.mk.injEq, Option.some.injEq]
        at hout
      obtain ⟨h1, _, h3⟩ := hout
      subst h1
      rw [← h3]
      exact ⟨hd1, dFresh_congr hf1 rfl⟩
  | profileExn =>
    obtain ⟨hdr, hd1⟩ := hsl.2.2.2 rfl
    have hdrv1 : st1.drivers.erase d1 = base := by
      rw [hdr]; exact List.erase_of_not_mem hd1
    dsimp only at heq
    rw [popQuit_eq] at heq
    dsimp only at heq
    subst heq
    refine ⟨hopen1, hdrv1, createsOk_congr hsl.2.1 rfl, ?_⟩
    intro d2 st2 env2' hout
    simp at hout

/-- `finalCleanup` restores the lease state. -/
lemma finalCleanup_frame (path : String) (open0 : List String)
    (base : List Nat) (dr : Option Nat) (st : RPState) (env : RPEnv)
    (hpath : path ∉ open0)
    (hopen : st.openProfiles = open0 ∨
      (dr ≠ none ∧ st.openProfiles = path :: open0))
    (hn : dr = none → st.drivers = base)
    (hs : ∀ d, dr = some d →
      (st.drivers = base ∨ st.drivers = base ++ [d]) ∧ d ∉ base) :
    (finalCleanup path dr st env).1.openProfiles = open0
    ∧ (finalCleanup path dr st env).1.drivers = base := by
  cases dr with
  | none =>
    rcases hopen with h | h
    · exact ⟨h, hn rfl⟩
    · exact absurd rfl h.1
  | some d =>
    rw [finalCleanup, popQuit_eq]
    dsimp only
    obtain ⟨hdrv, hd⟩ := hs d rfl
    constructor
    · rcases hopen with h | h
      · rw [h]; exact List.erase_of_not_mem hpath
      · rw [h.2]; exact List.erase_cons_head path open0
    · rcases hdrv with h | h
      · rw [h]; exact List.erase_of_not_mem hd
      · rw [h, List.erase_append_right _ hd]; simp

/-- Invariant of the whole `while` loop: starting with the path not
held and only fresh creatable drivers, the loop returns with
`open_profiles` equal to `open0` and the drivers list equal to the
other workers' `base`, whatever the environment does. -/
lemma rpLoop_frame (path : String) (processed0 users : List String)
    (base : List Nat) (open0 : List String) (hpath : path ∉ open0) :
    ∀ (fuel : Nat) (dr : Option Nat) (st : RPState) (env : RPEnv),
    (st.openProfiles = open0 ∨
      (dr ≠ none ∧ st.openProfiles = path :: open0)) →
    (dr = none → st.drivers = base) →
    (∀ d, dr = some d → (st.drivers = base ∨ st.drivers = base ++ [d])
        ∧ d ∉ base ∧ DFresh env d) →
    CreatesOk env base →
    ((rpLoop path processed0 users fuel dr st env).1.openProfiles = open0
    ∧ (rpLoop path processed0 users fuel dr st env).1.drivers = base) := by
  intro fuel
  induction fuel with
  | zero =>
    intro dr st env hopen hn hsome hc
    rw [rpLoop]
    exact finalCleanup_frame path open0 base dr st env hpath hopen hn
      (fun d hd => ⟨(hsome d hd).1, (hsome d hd).2.1⟩)
  | succ fuel ih =>
    intro dr st env hopen hn hsome hc
    rw [rpLoop, popStop_eq]
    dsimp only
    cases hstop : env.stops.headD false with
    | true =>
      rw [if_pos rfl]
      exact finalCleanup_frame path open0 base dr st _ hpath hopen hn
        (fun d hd => ⟨(hsome d hd).1, (hsome d hd).2.1⟩)
    | false =>
      rw [if_neg (by simp)]
      have hstep : ∀ (d2 : Nat) (st2 : RPState) (env2 : RPEnv),
          (st2.openProfiles = open0 ∨
            st2.openProfiles = path :: open0) →
          (st2.drivers = base ∨ st2.drivers = base ++ [d2]) →
          d2 ∉ base → DFresh env2 d2 → CreatesOk env2 base →
          ((match rpBody path processed0 users d2 st2 env2 with
            | Sum.inl (st3, env3) => (st3, env3)
            | Sum.inr (dr3, st3, env3) =>
                rpLoop path processed0 users fuel dr3 st3
                  env3).1.openProfiles = open0
          ∧ (match rpBody path processed0 users d2 st2 env2 with
            | Sum.inl (st3, env3) => (st3, env3)
            | Sum.inr (dr3, st3, env3) =>
                rpLoop path processed0 users fuel dr3 st3
                  env3).1.drivers = base) := by
        intro d2 st2 env2 ho2 hd2 hdb hdf hc2
        have hb := rpBody_frame path processed0 users base open0 d2 st2
          env2 (rpBody path processed0 users d2 st2 env2) rfl ho2 hpath
          hd2 hdb hdf hc2
        rcases hrb : rpBody path processed0 users d2 st2 env2 with
          ⟨st3, env3⟩ | ⟨dr3, st3, env3⟩
        · rw [hrb] at hb
          dsimp only [bodySt, bodyEnv] at hb
          exact ⟨hb.1, hb.2.1⟩
        · rw [hrb] at hb
          dsimp only [bodySt, bodyEnv] at hb
          apply ih dr3 st3 env3
          · exact Or.inl hb.1
          · intro _; exact hb.2.1
          · intro d3 hd3
            obtain ⟨hdb3, hdf3⟩ := hb.2.2.2 d3 st3 env3 (by rw [hd3])
            exact ⟨Or.inl hb.2.1, hdb3, hdf3⟩
          · exact hb.2.2.1
      cases dr with
      | some d =>
        dsimp only
        obtain ⟨hdrv, hdb, hdf⟩ := hsome d rfl
        exact hstep d st _ (hopen.imp id And.right) hdrv hdb
          (dFresh_congr hdf rfl) (createsOk_congr hc rfl)
      | none =>
        dsimp only
        have hstO : st.openProfiles = open0 := by
          rcases hopen with h | h
          · exact h
          · exact absurd rfl h.1
        by_cases hop : path ∈ st.openProfiles
        · rw [if_pos hop]
          exact absurd (hstO ▸ hop) hpath
        · rw [if_neg hop, popCreate_eq]
          dsimp only
          cases hcre : env.creates.headD none with
          | none =>
            apply ih none st _ (Or.inl hstO) (fun _ => hn rfl)
              (fun d hd => nomatch hd)
            exact createsOk_tail (createsOk_congr hc rfl)
          | some d =>
            dsimp only
            have hcE : CreatesOk { env with stops := env.stops.tail }
                base := createsOk_congr hc rfl
            obtain ⟨hdb, hdf⟩ := hcE.head hcre
            exact hstep d _ _ (Or.inr (by rw [hstO]))
              (Or.inr (by rw [hn rfl])) hdb hdf (createsOk_tail hcE)

/-- C6: on every exit path of `run_profile` — normal completion, the
early skip (vacuous here, since this worker then never acquired),
`ProfileException` retries up to the ceiling, generic exceptions
(driver creation or `driver.quit()` raising), or the stop flag — the
worker's lease is released: starting from a state in which `path` is
not held and an environment whose creatable driver ids are fresh,
`run_profile` returns with `open_profiles` and the campaign's shared
drivers list exactly as it found them: its path is not left in
`open_profiles` and every driver it created has been detached. -/
theorem run_profile_releases_lease (path : String)
    (processed0 users : List String) (maxRetries : Nat) (st : RPState)
    (env : RPEnv) (hopen : path ∉ st.openProfiles)
    (hc : CreatesOk env st.drivers) :
    (run_profile path processed0 users maxRetries st env).1.openProfiles
        = st.openProfiles
    ∧ (run_profile path processed0 users maxRetries st env).1.drivers
        = st.drivers :=
  rpLoop_frame path processed0 users st.drivers st.openProfiles hopen
    maxRetries none st env (Or.inl rfl) (fun _ => rfl)
    (fun _ hd => nomatch hd) hc

/-- Witness for C6: a worker that restarts a dead driver mid-loop and
then exhausts a quit failure still leaves `open_profiles = ["q"]` and
the shared drivers list `[7]` exactly as it found them. -/
theorem run_profile_releases_lease_witness :
    ¬("p") ∈ (["q"] : List String)
    ∧ ((run_profile ("p") [] [("a"), ("b")] 3
          { openProfiles := [("q")], drivers := [7], sentOk := [],
            attempts := [] }
          { stops := [], creates := [some 1, some 2],
            alives := [true, false], fetches := [], sends := [true],
            quits := [false, true] }).1.openProfiles = [("q")]
      ∧ (run_profile ("p") [] [("a"), ("b")] 3
          { openProfiles := [("q")], drivers := [7], sentOk := [],
            attempts := [] }
          { stops := [], creates := [some 1, some 2],
            alives := [true, false], fetches := [], sends := [true],
            quits := [false, true] }).1.drivers = [7]) :=
  ⟨by decide,
   run_profile_releases_lease ("p") [] [("a"), ("b")] 3
     { openProfiles := [("q")], drivers := [7], sentOk := [],
       attempts := [] }
     { stops := [], creates := [some 1, some 2],
       alives := [true, false], fetches := [], sends := [true],
       quits := [false, true] }
     (by decide)
     (by
       show (List.filterMap id [some 1, some 2]).Nodup ∧
         ∀ c ∈ List.filterMap id [some 1, some 2], c ∉ [7]
       decide)⟩

end IbotHub
